import Mathlib

/-!
Verification of the extraction-and-scheduling core of the Store-Price-Scraper
repository against its specification.

Shallow embedding notes:
* Prices are modelled as exact rationals (`ℚ`).  Python stores prices as IEEE
  doubles, but every price manipulated by the core is produced by `float(s)`
  for a short decimal string `s` and only compared for equality with other
  such values, so the exact-decimal semantics is observationally equivalent
  for all the properties below.
* Timestamps are modelled as `Nat`.
* The Python `re` patterns used by `BaseScraper.parse_price` are embedded as
  values of a small regex language `RE` together with a backtracking matcher
  `mrun` that reproduces Python's leftmost / priority-order matching
  semantics for exactly the constructs those patterns use (character
  classes, literals with IGNORECASE, greedy `*`/`+` over a class,
  alternation, an optional literal, one capture group).
* Exceptions are modelled explicitly: operations of the external store may
  "raise" (described by the environment), and the embedding of
  `BackgroundChecker._check_product` reproduces the source's
  `try/except Exception` structure.
-/

namespace PriceScraper

/-! ## Character classes and case folding (Python `re` with `IGNORECASE`) -/

/-- ASCII decimal digit, as matched by `\d` on the inputs of interest. -/
def pyDigit (c : Char) : Bool := c.isDigit

/-- Python `\s` whitespace class (ASCII part). -/
def pySpace (c : Char) : Bool :=
  c = ' ' || c = '\t' || c = '\n' || c = '\r' || c.toNat = 0x0b || c.toNat = 0x0c

/-- Case folding used for IGNORECASE literal comparison: ASCII letters and
the basic Cyrillic range (`А`–`Я` fold to `а`–`я`), which covers the
Bulgarian currency words in the patterns. -/
def caseFold (c : Char) : Char :=
  if 0x410 ≤ c.toNat ∧ c.toNat ≤ 0x42F then Char.ofNat (c.toNat + 0x20) else c.toLower

/-- The class `[\d\s,.]` of the capture groups of the currency patterns. -/
def clsNum (c : Char) : Bool := pyDigit c || pySpace c || c = ',' || c = '.'

/-- The class `[\d,.]` of the bare-number fallback pattern. -/
def clsNumBare (c : Char) : Bool := pyDigit c || c = ',' || c = '.'

/-! ## A small regex language with Python backtracking semantics -/

/-- Regexes generated by the constructs appearing in
`BaseScraper.PRICE_PATTERNS`: a single character from a class, a literal
(compared case-folded), an optional literal, alternation, sequencing, a
greedy class star (`\s*`) and a greedy captured class plus (`([...]+)`). -/
inductive RE where
  | cls : (Char → Bool) → RE
  | lit : List Char → RE
  | opt : List Char → RE
  | alt : RE → RE → RE
  | seq : RE → RE → RE
  | star : (Char → Bool) → RE
  | grp : (Char → Bool) → RE

/-- Consume a literal (case-folded) from the head of the input. -/
def dropLit : List Char → List Char → Option (List Char)
  | [], cs => some cs
  | _ :: _, [] => none
  | l :: ls, c :: cs => if caseFold c = caseFold l then dropLit ls cs else none

/-- Longest prefix of the input lying in a class, with the remainder. -/
def takeCls (f : Char → Bool) : List Char → List Char × List Char
  | [] => ([], [])
  | c :: cs =>
    if f c then
      let p := takeCls f cs
      (c :: p.1, p.2)
    else ([], c :: cs)

/-- The ways a greedy repetition can split `run ++ rest`, longest first,
taking at least `minLen` characters of `run`. -/
def greedySplits (run rest : List Char) (minLen : Nat) : List (List Char × List Char) :=
  (List.range (run.length + 1 - minLen)).map fun i =>
    (run.take (run.length - i), run.drop (run.length - i) ++ rest)

/-- Combine the captures of the two parts of a sequence: the single capture
group of each pattern lies in exactly one part. -/
def combineCap : Option (List Char) → Option (List Char) → Option (List Char)
  | some l, _ => some l
  | none, o => o

/-- All ways a regex can match a prefix of the input, in Python's
backtracking priority order; each result carries the capture (if the capture
group participated) and the remaining input. -/
def mrun : RE → List Char → List (Option (List Char) × List Char)
  | .cls _, [] => []
  | .cls f, c :: cs => if f c then [(none, cs)] else []
  | .lit l, cs =>
    match dropLit l cs with
    | some rest => [(none, rest)]
    | none => []
  | .opt l, cs =>
    match dropLit l cs with
    | some rest => [(none, rest), (none, cs)]
    | none => [(none, cs)]
  | .alt a b, cs => mrun a cs ++ mrun b cs
  | .seq a b, cs =>
    (mrun a cs).flatMap fun pr =>
      (mrun b pr.2).map fun qr => (combineCap pr.1 qr.1, qr.2)
  | .star f, cs =>
    let p := takeCls f cs
    (greedySplits p.1 p.2 0).map fun s => (none, s.2)
  | .grp f, cs =>
    let p := takeCls f cs
    (greedySplits p.1 p.2 1).map fun s => (some s.1, s.2)

/-- Python `re.search`: try each start position left to right; at the first
position where the pattern matches, return the group-1 capture of the
highest-priority match. -/
def search (re : RE) : List Char → Option (List Char)
  | [] =>
    match (mrun re []).head? with
    | some pr => some (pr.1.getD [])
    | none => none
  | c :: cs =>
    match (mrun re (c :: cs)).head? with
    | some pr => some (pr.1.getD [])
    | none => search re cs

/-! ## The price patterns of `BaseScraper.PRICE_PATTERNS` -/

/-- `([\d\s,.]+)\s*(?:лв\.?|лева|BGN)` (IGNORECASE) — Bulgarian lev. -/
def patLev : RE :=
  .seq (.grp clsNum) (.seq (.star pySpace)
    (.alt (.seq (.lit ['л', 'в']) (.opt ['.']))
      (.alt (.lit ['л', 'е', 'в', 'а']) (.lit ['B', 'G', 'N']))))

/-- `€\s*([\d\s,.]+)` — Euro prefix. -/
def patEuroPre : RE := .seq (.lit ['€']) (.seq (.star pySpace) (.grp clsNum))

/-- `([\d\s,.]+)\s*€` — Euro suffix. -/
def patEuroSuf : RE := .seq (.grp clsNum) (.seq (.star pySpace) (.lit ['€']))

/-- `([\d\s,.]+)\s*EUR` (IGNORECASE). -/
def patEur : RE := .seq (.grp clsNum) (.seq (.star pySpace) (.lit ['E', 'U', 'R']))

/-- `\$\s*([\d\s,.]+)` — USD prefix. -/
def patUsdPre : RE := .seq (.lit ['$']) (.seq (.star pySpace) (.grp clsNum))

/-- `([\d\s,.]+)\s*(?:USD|\$)` (IGNORECASE) — USD suffix. -/
def patUsdSuf : RE :=
  .seq (.grp clsNum) (.seq (.star pySpace) (.alt (.lit ['U', 'S', 'D']) (.lit ['$'])))

/-- `([\d,.]+)` — just numbers as fallback. -/
def patBare : RE := .grp clsNumBare

/-- The ordered pattern list `BaseScraper.PRICE_PATTERNS`. -/
def PRICE_PATTERNS : List RE :=
  [patLev, patEuroPre, patEuroSuf, patEur, patUsdPre, patUsdSuf, patBare]

/-! ## `BaseScraper.parse_price` -/

/-- Recogniser for `^\d{1,3}(,\d{3})+(\.\d+)?$` starting after the first
comma group: `(,\d{3})+(\.\d+)?` up to the end of the string. -/
def usTail : List Char → Bool
  | ',' :: d1 :: d2 :: d3 :: rest =>
    pyDigit d1 && pyDigit d2 && pyDigit d3 &&
      (match rest with
       | [] => true
       | ',' :: _ => usTail rest
       | '.' :: ds => !ds.isEmpty && ds.all pyDigit
       | _ => false)
  | _ => false

/-- The anchored test `regex.match(r"^\d{1,3}(,\d{3})+(\.\d+)?$", s)` used to
recognise US-style thousands grouping. -/
def matchUS (cs : List Char) : Bool :=
  let p := takeCls pyDigit cs
  decide (1 ≤ p.1.length) && decide (p.1.length ≤ 3) && usTail p.2

/-- Python `"".split(".")`-style splitting on `'.'`. -/
def splitDots : List Char → List (List Char)
  | [] => [[]]
  | c :: cs =>
    if c = '.' then [] :: splitDots cs
    else
      match splitDots cs with
      | [] => [[c]]
      | p :: ps => (c :: p) :: ps

/-- `"".join(parts[:-1]) + "." + parts[-1]` when more than one dot remains. -/
def collapseDots (cs : List Char) : List Char :=
  let parts := splitDots cs
  if parts.length > 2 then parts.dropLast.flatten ++ '.' :: parts.getLastD []
  else cs

/-- Digit run to a natural number. -/
def digitsToNat (cs : List Char) : Nat :=
  cs.foldl (fun a c => 10 * a + (c.toNat - 48)) 0

/-- Python `float(s)` on the strings reachable here (digits and at most one
dot): succeeds exactly when the string consists of digits and at most one
dot and contains at least one digit; `ValueError` is modelled as `none`. -/
def pyFloat (cs : List Char) : Option ℚ :=
  if (cs.all fun c => pyDigit c || c = '.') && cs.count '.' ≤ 1 && cs.any pyDigit then
    match splitDots cs with
    | [ip] => some (digitsToNat ip : ℚ)
    | [ip, fp] => some ((digitsToNat ip : ℚ) + (digitsToNat fp : ℚ) / (10 ^ fp.length : ℚ))
    | _ => none
  else none

/-- Python `str.strip()` (ASCII whitespace). -/
def pyStrip (cs : List Char) : List Char :=
  ((cs.dropWhile pySpace).reverse.dropWhile pySpace).reverse

/-- The body of one iteration of the pattern loop of
`BaseScraper.parse_price`: search, strip spaces from the capture,
disambiguate the comma, collapse extra dots, convert.  `none` means the
loop continues with the next pattern (no match, or `ValueError`). -/
def tryPattern (re : RE) (cleaned : List Char) : Option ℚ :=
  match search re cleaned with
  | none => none
  | some cap =>
    let s1 := cap.filter fun c => c ≠ ' '
    let s2 :=
      if matchUS s1 then s1.filter fun c => c ≠ ','
      else s1.map fun c => if c = ',' then '.' else c
    pyFloat (collapseDots s2)

/-- The pattern loop of `BaseScraper.parse_price`. -/
def parseLoop : List RE → List Char → Option ℚ
  | [], _ => none
  | re :: rest, cs =>
    match tryPattern re cs with
    | some v => some v
    | none => parseLoop rest cs

/-- `BaseScraper.parse_price`. -/
def parse_price (text : String) : Option ℚ :=
  if text.data.isEmpty then none
  else parseLoop PRICE_PATTERNS (pyStrip text.data)

/-! ## `BaseScraper.get_price`

`fetch_page` and `extract_element_text` are abstract in `BaseScraper`; they
are modelled as function parameters.  A raised exception is modelled as
`Except.error`; `extract_element_text` returning `None` as `Except.ok none`.
The `try/except Exception: return None` of the source makes every error
collapse to `none`. -/
def get_price
    (fetch_page : String → Except String String)
    (extract_element_text : String → String → String → Except String (Option String))
    (url selector selector_type : String) : Option ℚ :=
  match fetch_page url with
  | .error _ => none
  | .ok html =>
    match extract_element_text html selector selector_type with
    | .error _ => none
    | .ok none => none
    | .ok (some text) => if text.data.isEmpty then none else parse_price text

/-! ## Data model: `Product`, `PriceRecord`, the JSON store -/

/-- `price_tracker.models.product.Product`. -/
structure Product where
  name : String
  url : String
  selector : String
  selector_type : String
  id : String
  current_price : Option ℚ
  previous_price : Option ℚ
  last_checked : Option Nat
  created_at : Nat
  notify_on_drop : Bool
  target_price : Option ℚ
  use_selenium : Bool
deriving DecidableEq, Repr

/-- `price_tracker.models.price_record.PriceRecord`. -/
structure PriceRecord where
  product_id : String
  price : ℚ
  timestamp : Nat
  id : String
deriving DecidableEq, Repr

/-- The persisted content of `JsonStorage`: the products file and the price
history file. -/
structure Store where
  products : List Product
  records : List PriceRecord
deriving DecidableEq, Repr

/-- `JsonStorage.update_product`: replace the first stored product with a
matching id; if none matches, nothing is written. -/
def replaceById : List Product → Product → List Product
  | [], _ => []
  | q :: qs, p => if q.id = p.id then p :: qs else q :: replaceById qs p

/-! ## `BackgroundChecker` -/

/-- `PriceUpdate` of `price_tracker.scheduler.background_checker`. -/
structure PriceUpdate where
  product : Product
  old_price : Option ℚ
  new_price : ℚ
  success : Bool
  error : Option String
deriving DecidableEq, Repr

/-- Which scraper a check invoked (instrumentation of the calls to
`HttpScraper.get_price` / `SeleniumScraper.get_price`). -/
inductive Fetcher where
  | http
  | selenium
deriving DecidableEq, Repr

/-- Calls made to the external store (instrumentation of
`storage.update_product` / `storage.add_price_record`). -/
inductive StoreCall where
  | save : Product → StoreCall
  | append : PriceRecord → StoreCall
deriving DecidableEq, Repr

/-- Events delivered to the registered callbacks. -/
inductive Event where
  | priceUpdate : PriceUpdate → Event
  | checkComplete : (succeeded total : Nat) → Event
deriving DecidableEq, Repr

/-- The environment of a check: what the scrapers return for each product,
the `use_selenium_fallback` flag, whether a store call raises (`some msg` =
an exception with message `msg`, keyed by product id), the clock, and the
uuid generator for new price records. -/
structure CheckEnv where
  http_price : Product → Option ℚ
  selenium_price : Product → Option ℚ
  use_selenium_fallback : Bool
  save_error : String → Option String
  record_error : String → Option String
  now : Nat
  gen_id : Product → String

/-- The fetch-escalation policy of `BackgroundChecker._check_product`
(lines 137–145): selenium directly when `product.use_selenium`, otherwise
HTTP first and selenium only when HTTP yielded `None` and the fallback flag
is on.  Also returns the list of scraper invocations, in order. -/
def fetchPrice (env : CheckEnv) (p : Product) : Option ℚ × List Fetcher :=
  if p.use_selenium then (env.selenium_price p, [Fetcher.selenium])
  else
    match env.http_price p with
    | some v => (some v, [Fetcher.http])
    | none =>
      if env.use_selenium_fallback then (env.selenium_price p, [Fetcher.http, Fetcher.selenium])
      else (none, [Fetcher.http])

/-- Everything observable about one `_check_product` call: the returned
`PriceUpdate`, the store afterwards, the scraper invocations, the store
calls attempted, and the events emitted. -/
structure CheckOutcome where
  update : PriceUpdate
  store : Store
  fetches : List Fetcher
  store_calls : List StoreCall
  events : List Event
deriving DecidableEq, Repr

/-- `BackgroundChecker._check_product`.  The source wraps the whole body in
`try/except Exception`, so a store exception is converted into a failed
`PriceUpdate` carrying `str(e)`; the in-place mutation of `product` before
the failing call is kept (the returned update carries the mutated product),
but the store only reflects the calls that completed. -/
def check_product (env : CheckEnv) (st : Store) (p : Product) : CheckOutcome :=
  let old_price := p.current_price
  let fr := fetchPrice env p
  match fr.1 with
  | none =>
    { update := { product := p, old_price := old_price, new_price := 0,
                  success := false, error := some "Could not extract price" },
      store := st, fetches := fr.2, store_calls := [], events := [] }
  | some new_price =>
    let p' := { p with previous_price := old_price, current_price := some new_price,
                       last_checked := some env.now }
    match env.save_error p.id with
    | some msg =>
      { update := { product := p', old_price := old_price, new_price := 0,
                    success := false, error := some msg },
        store := st, fetches := fr.2, store_calls := [StoreCall.save p'], events := [] }
    | none =>
      let st1 : Store := { st with products := replaceById st.products p' }
      let recd : PriceRecord :=
        { product_id := p.id, price := new_price, timestamp := env.now, id := env.gen_id p }
      match env.record_error p.id with
      | some msg =>
        { update := { product := p', old_price := old_price, new_price := 0,
                      success := false, error := some msg },
          store := st1, fetches := fr.2,
          store_calls := [StoreCall.save p', StoreCall.append recd], events := [] }
      | none =>
        let st2 : Store := { st1 with records := st1.records ++ [recd] }
        let upd : PriceUpdate :=
          { product := p', old_price := old_price, new_price := new_price,
            success := true, error := none }
        { update := upd, store := st2, fetches := fr.2,
          store_calls := [StoreCall.save p', StoreCall.append recd],
          events := [Event.priceUpdate upd] }

/-- The loop of `BackgroundChecker._check_all_products` over the product
list snapshot, threading the store and collecting updates and events. -/
def checkLoop (env : CheckEnv) : List Product → Store → List PriceUpdate × Store × List Event
  | [], st => ([], st, [])
  | p :: ps, st =>
    let o := check_product env st p
    let r := checkLoop env ps o.store
    (o.update :: r.1, r.2.1, o.events ++ r.2.2)

/-- `BackgroundChecker._check_all_products`: snapshot the product list,
check each product sequentially, then emit one completion event carrying
`(success_count, total)`. -/
def check_all_products (env : CheckEnv) (st : Store) :
    List PriceUpdate × Store × List Event :=
  let products := st.products
  let r := checkLoop env products st
  (r.1, r.2.1, r.2.2 ++ [Event.checkComplete (r.1.countP (·.success)) products.length])

/-! ## Scheduler lifecycle (`start` / `stop` / `is_running`) -/

/-- The lifecycle-relevant state of a `BackgroundChecker`: the `_is_running`
flag, whether `_scheduler` is set, how many `BackgroundScheduler`s were
started (instrumentation — the source starts one per effective `start`),
and whether `_selenium_scraper` is open. -/
structure CheckerState where
  is_running : Bool
  has_scheduler : Bool
  timers_started : Nat
  selenium_open : Bool
deriving DecidableEq, Repr

/-- `BackgroundChecker.start`: no-op when already running, otherwise create
and start a scheduler and mark running. -/
def start (s : CheckerState) : CheckerState :=
  if s.is_running then s
  else { s with has_scheduler := true, timers_started := s.timers_started + 1,
                is_running := true }

/-- `BackgroundChecker.stop`: shut the scheduler down when one is set and
running; unconditionally close the selenium scraper. -/
def stop (s : CheckerState) : CheckerState :=
  let s1 := if s.has_scheduler && s.is_running then
      { s with is_running := false, has_scheduler := false }
    else s
  { s1 with selenium_open := false }

/-- `BackgroundChecker.is_running`. -/
def is_running (s : CheckerState) : Bool := s.is_running

/-- A sequence of lifecycle calls. -/
inductive LifeOp where
  | start
  | stop
deriving DecidableEq, Repr

/-- Run a sequence of `start`/`stop` calls. -/
def runOps (s : CheckerState) : List LifeOp → CheckerState
  | [] => s
  | op :: ops =>
    match op with
    | .start => runOps (start s) ops
    | .stop => runOps (stop s) ops

/-- Invariant of the real object: whenever `_is_running` is set, a scheduler
object exists (both are set together by `start` and cleared together by
`stop`). -/
def GoodState (s : CheckerState) : Prop := s.is_running = true → s.has_scheduler = true

/-! ## Concrete fixtures used to instantiate the theorems -/

/-- An empty store. -/
def emptyStore : Store := { products := [], records := [] }

/-- A tracked product checked over plain HTTP. -/
def sampleProduct : Product :=
  { name := "Laptop", url := "https://shop.example/laptop", selector := ".price",
    selector_type := "css", id := "p1", current_price := some 100,
    previous_price := none, last_checked := none, created_at := 0,
    notify_on_drop := true, target_price := none, use_selenium := false }

/-- A render-required product. -/
def sampleProductSel : Product :=
  { sampleProduct with id := "p2", use_selenium := true }

/-- A store holding the two sample products. -/
def sampleStore : Store := { products := [sampleProduct, sampleProductSel], records := [] }

/-- An environment where every fetch yields a price and the store works. -/
def envOk : CheckEnv :=
  { http_price := fun _ => some 80, selenium_price := fun _ => some 70,
    use_selenium_fallback := true, save_error := fun _ => none,
    record_error := fun _ => none, now := 5, gen_id := fun _ => "r1" }

/-- An environment where both scrapers yield nothing and the fallback flag
is off. -/
def envAbsent : CheckEnv :=
  { envOk with http_price := fun _ => none, selenium_price := fun _ => none,
               use_selenium_fallback := false }

/-- An environment where `storage.update_product` raises. -/
def envSaveFail : CheckEnv :=
  { envOk with save_error := fun _ => some "disk full" }

/-- An environment where `storage.add_price_record` raises. -/
def envRecordFail : CheckEnv :=
  { envOk with record_error := fun _ => some "history file locked" }

/-- A freshly constructed checker (not running, nothing allocated). -/
def initialChecker : CheckerState :=
  { is_running := false, has_scheduler := false, timers_started := 0,
    selenium_open := false }

/-! # Theorems -/

/-- Both fields of `check_product` that do not touch the store are
independent of the store passed in. -/
theorem check_product_store_indep (env : CheckEnv) (st st' : Store) (p : Product) :
    (check_product env st p).update = (check_product env st' p).update ∧
    (check_product env st p).fetches = (check_product env st' p).fetches ∧
    (check_product env st p).events = (check_product env st' p).events := by
  rcases hfp : fetchPrice env p with ⟨np, fs⟩
  cases np with
  | none => simp [check_product, hfp]
  | some v =>
    cases hs : env.save_error p.id with
    | some msg => simp [check_product, hfp, hs]
    | none =>
      cases hr : env.record_error p.id with
      | some msg => simp [check_product, hfp, hs, hr]
      | none => simp [check_product, hfp, hs, hr]

/-- The scraper invocations of a check are exactly those of the escalation
policy. -/
theorem check_product_fetches (env : CheckEnv) (st : Store) (p : Product) :
    (check_product env st p).fetches = (fetchPrice env p).2 := by
  rcases hfp : fetchPrice env p with ⟨np, fs⟩
  cases np with
  | none => simp [check_product, hfp]
  | some v =>
    cases hs : env.save_error p.id with
    | some msg => simp [check_product, hfp, hs]
    | none =>
      cases hr : env.record_error p.id with
      | some msg => simp [check_product, hfp, hs, hr]
      | none => simp [check_product, hfp, hs, hr]

/-- C6: `Parse` returns exactly the spec's example values:
`Parse("99.99 лв.") = 99.99`, `Parse("1 234,56 лв.") = 1234.56`,
`Parse("$1,234.56") = 1234.56`, `Parse("€99.99") = 99.99`, and `Parse("")`
and `Parse("not a price")` yield no value; the first and third inputs
exercise the comma-as-decimal branch and the comma-as-thousands branch of
the `\d{1,3}(,\d{3})+(\.\d+)?` disambiguation respectively. -/
theorem parse_price_spec_examples :
    parse_price "99.99 лв." = some (9999 / 100 : ℚ) ∧
    parse_price "1 234,56 лв." = some (123456 / 100 : ℚ) ∧
    parse_price "$1,234.56" = some (123456 / 100 : ℚ) ∧
    parse_price "€99.99" = some (9999 / 100 : ℚ) ∧
    parse_price "" = none ∧
    parse_price "not a price" = none := by
  refine ⟨?_, ?_, ?_, ?_, rfl, rfl⟩
  · have h : parse_price "99.99 лв." =
        some ((digitsToNat ['9', '9'] : ℚ) + (digitsToNat ['9', '9'] : ℚ) / 10 ^ 2) := rfl
    rw [h, show digitsToNat ['9', '9'] = 99 from by decide]
    norm_num
  · have h : parse_price "1 234,56 лв." =
        some ((digitsToNat ['1', '2', '3', '4'] : ℚ) +
          (digitsToNat ['5', '6'] : ℚ) / 10 ^ 2) := rfl
    rw [h, show digitsToNat ['1', '2', '3', '4'] = 1234 from by decide,
      show digitsToNat ['5', '6'] = 56 from by decide]
    norm_num
  · have h : parse_price "$1,234.56" =
        some ((digitsToNat ['1', '2', '3', '4'] : ℚ) +
          (digitsToNat ['5', '6'] : ℚ) / 10 ^ 2) := rfl
    rw [h, show digitsToNat ['1', '2', '3', '4'] = 1234 from by decide,
      show digitsToNat ['5', '6'] = 56 from by decide]
    norm_num
  · have h : parse_price "€99.99" =
        some ((digitsToNat ['9', '9'] : ℚ) + (digitsToNat ['9', '9'] : ℚ) / 10 ^ 2) := rfl
    rw [h, show digitsToNat ['9', '9'] = 99 from by decide]
    norm_num

/-- C8: `get_price` collapses every failure to `none`: a fetch error, an
extraction error, an absent element, an empty text, or an unparseable text
all give `none`, and `get_price` is a total function (it never raises). -/
theorem get_price_total_absent
    (fetch_page : String → Except String String)
    (extract_element_text : String → String → String → Except String (Option String))
    (url selector selector_type : String) :
    (∀ e, fetch_page url = .error e →
      get_price fetch_page extract_element_text url selector selector_type = none) ∧
    (∀ html e, fetch_page url = .ok html →
      extract_element_text html selector selector_type = .error e →
      get_price fetch_page extract_element_text url selector selector_type = none) ∧
    (∀ html, fetch_page url = .ok html →
      extract_element_text html selector selector_type = .ok none →
      get_price fetch_page extract_element_text url selector selector_type = none) ∧
    (∀ html, fetch_page url = .ok html →
      extract_element_text html selector selector_type = .ok (some "") →
      get_price fetch_page extract_element_text url selector selector_type = none) ∧
    (∀ html text, fetch_page url = .ok html →
      extract_element_text html selector selector_type = .ok (some text) →
      parse_price text = none →
      get_price fetch_page extract_element_text url selector selector_type = none) := by
  refine ⟨?_, ?_, ?_, ?_, ?_⟩
  · intro e hf
    simp [get_price, hf]
  · intro html e hf hx
    simp [get_price, hf, hx]
  · intro html hf hx
    simp [get_price, hf, hx]
  · intro html hf hx
    simp [get_price, hf, hx]
  · intro html text hf hx hp
    simp [get_price, hf, hx, hp]

/-- Witness for C8 at a concrete unreachable page. -/
theorem get_price_total_absent_witness :
    get_price (fun _ => Except.error "connection refused")
      (fun _ _ _ => Except.ok none) "https://shop.example" ".price" "css" = none :=
  (get_price_total_absent (fun _ => Except.error "connection refused")
    (fun _ _ _ => Except.ok none) "https://shop.example" ".price" "css").1
    "connection refused" rfl

/-- C10: every `PriceUpdate` produced by a check has `error ≠ none` and the
sentinel `new_price = 0` when `success` is false, and `error = none` with
`new_price` equal to the extracted price when `success` is true. -/
theorem price_update_invariant (env : CheckEnv) (st : Store) (p : Product) :
    ((check_product env st p).update.success = false →
      (check_product env st p).update.error ≠ none ∧
      (check_product env st p).update.new_price = 0) ∧
    ((check_product env st p).update.success = true →
      (check_product env st p).update.error = none ∧
      (fetchPrice env p).1 = some ((check_product env st p).update.new_price)) := by
  rcases hfp : fetchPrice env p with ⟨np, fs⟩
  cases np with
  | none => simp [check_product, hfp]
  | some v =>
    cases hs : env.save_error p.id with
    | some msg => simp [check_product, hfp, hs]
    | none =>
      cases hr : env.record_error p.id with
      | some msg => simp [check_product, hfp, hs, hr]
      | none => simp [check_product, hfp, hs, hr]

/-- Witness for C10: a concrete successful check has no error and reports
the extracted price. -/
theorem price_update_invariant_witness :
    (check_product envOk sampleStore sampleProduct).update.error = none ∧
    (fetchPrice envOk sampleProduct).1 =
      some ((check_product envOk sampleStore sampleProduct).update.new_price) :=
  (price_update_invariant envOk sampleStore sampleProduct).2 (by decide)

/-- C4: a render-required item is checked with the selenium scraper only;
otherwise the HTTP scraper runs first and the selenium scraper runs
afterwards exactly when HTTP yielded nothing and the fallback flag is on —
with the flag off, an absent HTTP result never invokes selenium. -/
theorem fetch_escalation_policy (env : CheckEnv) (st : Store) (p : Product) :
    (p.use_selenium = true →
      (check_product env st p).fetches = [Fetcher.selenium]) ∧
    (p.use_selenium = false →
      (check_product env st p).fetches =
        (if env.http_price p = none ∧ env.use_selenium_fallback = true
          then [Fetcher.http, Fetcher.selenium] else [Fetcher.http]) ∧
      (check_product env st p).fetches.head? = some Fetcher.http ∧
      (env.use_selenium_fallback = false → env.http_price p = none →
        Fetcher.selenium ∉ (check_product env st p).fetches)) := by
  rw [check_product_fetches]
  unfold fetchPrice
  constructor
  · intro h
    simp [h]
  · intro h
    simp only [h, Bool.false_eq_true, if_false]
    cases hh : env.http_price p with
    | some v => simp
    | none =>
      cases hf : env.use_selenium_fallback with
      | true => simp
      | false => simp

/-- Witness for C4: with the fallback disabled and HTTP yielding nothing,
the selenium scraper is not invoked. -/
theorem fetch_escalation_policy_witness :
    Fetcher.selenium ∉ (check_product envAbsent sampleStore sampleProduct).fetches :=
  ((fetch_escalation_policy envAbsent sampleStore sampleProduct).2 rfl).2.2 rfl rfl

/-- C2: when the fetch/extract/parse pipeline yields no price, the check
returns a failed result carrying a reason, the product is returned
unmodified, no store call is made and the store is unchanged, and no event
is emitted. -/
theorem check_product_failure_untouched (env : CheckEnv) (st : Store) (p : Product)
    (h : (fetchPrice env p).1 = none) :
    (check_product env st p).update.success = false ∧
    (check_product env st p).update.error = some "Could not extract price" ∧
    (check_product env st p).update.product = p ∧
    (check_product env st p).store = st ∧
    (check_product env st p).store_calls = [] ∧
    (check_product env st p).events = [] := by
  rcases hfp : fetchPrice env p with ⟨np, fs⟩
  rw [hfp] at h
  simp only at h
  subst h
  simp [check_product, hfp]

/-- Witness for C2 at a concrete absent price. -/
theorem check_product_failure_untouched_witness :
    (check_product envAbsent sampleStore sampleProduct).update.success = false ∧
    (check_product envAbsent sampleStore sampleProduct).update.error =
      some "Could not extract price" ∧
    (check_product envAbsent sampleStore sampleProduct).update.product = sampleProduct ∧
    (check_product envAbsent sampleStore sampleProduct).store = sampleStore ∧
    (check_product envAbsent sampleStore sampleProduct).store_calls = [] ∧
    (check_product envAbsent sampleStore sampleProduct).events = [] :=
  check_product_failure_untouched envAbsent sampleStore sampleProduct rfl

/-- C1: when the pipeline yields a price and the store calls go through,
the check sets `previous_price` to the pre-check `current_price`, sets
`current_price` and `last_checked`, persists the updated product, appends
exactly one price record equal to the new price, emits the per-item event,
and returns a succeeded result; when no price is obtained, neither the
product nor the store is touched, so `previous_price` is written on no
other path. -/
theorem check_product_success_path (env : CheckEnv) (st : Store) (p : Product)
    (hs : env.save_error p.id = none) (hr : env.record_error p.id = none) :
    (∀ v, (fetchPrice env p).1 = some v →
      (check_product env st p).update.success = true ∧
      (check_product env st p).update.error = none ∧
      (check_product env st p).update.new_price = v ∧
      (check_product env st p).update.old_price = p.current_price ∧
      (check_product env st p).update.product.previous_price = p.current_price ∧
      (check_product env st p).update.product.current_price = some v ∧
      (check_product env st p).update.product.last_checked = some env.now ∧
      (check_product env st p).store.products =
        replaceById st.products ((check_product env st p).update.product) ∧
      (check_product env st p).store.records =
        st.records ++ [⟨p.id, v, env.now, env.gen_id p⟩] ∧
      (check_product env st p).events =
        [Event.priceUpdate ((check_product env st p).update)]) ∧
    ((fetchPrice env p).1 = none →
      (check_product env st p).update.product = p ∧
      (check_product env st p).store = st) := by
  rcases hfp : fetchPrice env p with ⟨np, fs⟩
  constructor
  · intro v hv
    simp only at hv
    subst hv
    simp [check_product, hfp, hs, hr]
  · intro hv
    simp only at hv
    subst hv
    simp [check_product, hfp]

/-- Witness for C1 at a concrete successful check: the price 80 obtained
for a product previously at 100 yields a succeeded update with
`previous_price = 100` and appends the record of 80. -/
theorem check_product_success_path_witness :
    (check_product envOk sampleStore sampleProduct).update.success = true ∧
    (check_product envOk sampleStore sampleProduct).update.error = none ∧
    (check_product envOk sampleStore sampleProduct).update.new_price = 80 ∧
    (check_product envOk sampleStore sampleProduct).update.old_price = some 100 ∧
    (check_product envOk sampleStore sampleProduct).update.product.previous_price =
      some 100 ∧
    (check_product envOk sampleStore sampleProduct).update.product.current_price =
      some 80 ∧
    (check_product envOk sampleStore sampleProduct).update.product.last_checked =
      some 5 ∧
    (check_product envOk sampleStore sampleProduct).store.products =
      replaceById sampleStore.products
        ((check_product envOk sampleStore sampleProduct).update.product) ∧
    (check_product envOk sampleStore sampleProduct).store.records =
      sampleStore.records ++ [⟨"p1", 80, 5, "r1"⟩] ∧
    (check_product envOk sampleStore sampleProduct).events =
      [Event.priceUpdate ((check_product envOk sampleStore sampleProduct).update)] :=
  (check_product_success_path envOk sampleStore sampleProduct rfl rfl).1 80 rfl

/-- Counterexample to C3: at a concrete input where `storage.update_product`
raises, the exception does not propagate — `_check_product` is total here
and returns a failed `PriceUpdate` carrying the exception's message, which
is exactly the conversion the claim denies. -/
theorem persistence_error_converted_cex :
    (check_product envSaveFail sampleStore sampleProduct).update.success = false ∧
    (check_product envSaveFail sampleStore sampleProduct).update.error =
      some "disk full" ∧
    (check_all_products envSaveFail sampleStore).1.length = 2 := by
  refine ⟨rfl, rfl, rfl⟩

/-- C3 (amended): an exception raised by `SaveItem` or `AppendSample` is
caught at the item boundary and converted into a failed `CheckResult`
carrying the exception's message; the failing call leaves no trace in the
store, and nothing propagates out of `CheckOne`. -/
theorem persistence_error_converted (env : CheckEnv) (st : Store) (p : Product)
    (v : ℚ) (msg : String) :
    ((fetchPrice env p).1 = some v → env.save_error p.id = some msg →
      (check_product env st p).update.success = false ∧
      (check_product env st p).update.error = some msg ∧
      (check_product env st p).store = st) ∧
    ((fetchPrice env p).1 = some v → env.save_error p.id = none →
      env.record_error p.id = some msg →
      (check_product env st p).update.success = false ∧
      (check_product env st p).update.error = some msg ∧
      (check_product env st p).store.records = st.records) := by
  rcases hfp : fetchPrice env p with ⟨np, fs⟩
  constructor
  · intro hv hs
    simp only at hv
    subst hv
    simp [check_product, hfp, hs]
  · intro hv hs hr
    simp only at hv
    subst hv
    simp [check_product, hfp, hs, hr]

/-- Witness for the amended C3 at a concrete failing `AppendSample`. -/
theorem persistence_error_converted_witness :
    (check_product envRecordFail sampleStore sampleProduct).update.success = false ∧
    (check_product envRecordFail sampleStore sampleProduct).update.error =
      some "history file locked" ∧
    (check_product envRecordFail sampleStore sampleProduct).store.records =
      sampleStore.records :=
  (persistence_error_converted envRecordFail sampleStore sampleProduct 80
    "history file locked").2 rfl rfl rfl

/-- `start` and `stop` preserve the running-implies-scheduler invariant. -/
theorem good_state_preserved (s : CheckerState) (hg : GoodState s) :
    GoodState (start s) ∧ GoodState (stop s) := by
  constructor
  · intro _
    unfold start
    cases h : s.is_running with
    | true => simpa [h] using hg h
    | false => simp [h]
  · intro hr
    unfold stop at hr ⊢
    by_cases h : s.has_scheduler && s.is_running <;> simp [h] at hr ⊢
    exact hg hr

/-- `start` always leaves the checker running. -/
theorem start_running (s : CheckerState) : (start s).is_running = true := by
  unfold start
  cases h : s.is_running with
  | true => simp [h]
  | false => simp [h]

/-- `stop` on a good state always leaves the checker stopped. -/
theorem stop_not_running (s : CheckerState) (hg : GoodState s) :
    (stop s).is_running = false := by
  unfold stop
  by_cases h : (s.has_scheduler && s.is_running) = true
  · simp [h]
  · simp only [h, if_false]
    by_cases hr : s.is_running = true
    · exact absurd (by simp [hg hr, hr]) h
    · simpa using hr

/-- After any `start`/`stop` sequence from a good state, `is_running`
reports the state left by the last call (or the initial state for the empty
sequence). -/
theorem runOps_last_call (ops : List LifeOp) :
    ∀ s : CheckerState, GoodState s →
      is_running (runOps s ops) =
        ops.foldl (fun _ op => match op with
          | LifeOp.start => true
          | LifeOp.stop => false) s.is_running := by
  induction ops with
  | nil => intro s _; rfl
  | cons op ops ih =>
    intro s hg
    cases op with
    | start =>
      show is_running (runOps (start s) ops) = _
      rw [ih (start s) (good_state_preserved s hg).1, start_running s]
      rfl
    | stop =>
      show is_running (runOps (stop s) ops) = _
      rw [ih (stop s) (good_state_preserved s hg).2, stop_not_running s hg]
      rfl

/-- C9: `start` on a running checker is a complete no-op (no second timer);
`stop` on a stopped checker leaves it stopped with the same scheduler state
and timer count; `start` twice leaves it running having started one timer,
`stop` twice leaves it stopped; and after any call sequence `is_running`
reports exactly the state left by the last call. -/
theorem start_stop_idempotent (s : CheckerState) (ops : List LifeOp)
    (hg : GoodState s) :
    (s.is_running = true → start s = s) ∧
    (s.is_running = false →
      is_running (stop s) = false ∧
      (stop s).timers_started = s.timers_started ∧
      (stop s).has_scheduler = s.has_scheduler) ∧
    is_running (start (start s)) = true ∧
    (start (start s)).timers_started = (start s).timers_started ∧
    is_running (stop (stop s)) = false ∧
    is_running (runOps s ops) =
      ops.foldl (fun _ op => match op with
        | LifeOp.start => true
        | LifeOp.stop => false) s.is_running := by
  refine ⟨?_, ?_, ?_, ?_, ?_, runOps_last_call ops s hg⟩
  · intro h
    unfold start
    simp [h]
  · intro h
    unfold stop
    simp [is_running, h]
  · exact start_running (start s)
  · unfold start
    cases h : s.is_running with
    | true => simp [h]
    | false => simp [h]
  · exact stop_not_running (stop s) (good_state_preserved s hg).2

/-- Witness for C9 from the freshly constructed checker. -/
theorem start_stop_idempotent_witness :
    is_running (runOps initialChecker [LifeOp.start, LifeOp.start, LifeOp.stop]) = false :=
  (start_stop_idempotent initialChecker [LifeOp.start, LifeOp.start, LifeOp.stop]
    (fun h => by simp [initialChecker] at h)).2.2.2.2.2

/-- A check never changes the identity of the product it reports on. -/
theorem check_product_update_id (env : CheckEnv) (st : Store) (p : Product) :
    (check_product env st p).update.product.id = p.id := by
  rcases hfp : fetchPrice env p with ⟨np, fs⟩
  cases np with
  | none => simp [check_product, hfp]
  | some v =>
    cases hs : env.save_error p.id with
    | some msg => simp [check_product, hfp, hs]
    | none =>
      cases hr : env.record_error p.id with
      | some msg => simp [check_product, hfp, hs, hr]
      | none => simp [check_product, hfp, hs, hr]

/-- A single check emits either nothing or exactly its own per-item update
event — never a cycle-completion event. -/
theorem check_product_events_shape (env : CheckEnv) (st : Store) (p : Product) :
    (check_product env st p).events = [] ∨
    (check_product env st p).events =
      [Event.priceUpdate ((check_product env st p).update)] := by
  rcases hfp : fetchPrice env p with ⟨np, fs⟩
  cases np with
  | none => left; simp [check_product, hfp]
  | some v =>
    cases hs : env.save_error p.id with
    | some msg => left; simp [check_product, hfp, hs]
    | none =>
      cases hr : env.record_error p.id with
      | some msg => left; simp [check_product, hfp, hs, hr]
      | none => right; simp [check_product, hfp, hs, hr]

/-- The loop of `_check_all_products` returns one update per snapshot item,
in order, and only per-item events, independent of the threaded store. -/
theorem checkLoop_map (env : CheckEnv) : ∀ (ps : List Product) (st : Store),
    (checkLoop env ps st).1 =
      ps.map (fun p => (check_product env emptyStore p).update) ∧
    (checkLoop env ps st).2.2 =
      ps.flatMap (fun p => (check_product env emptyStore p).events) := by
  intro ps
  induction ps with
  | nil => intro st; exact ⟨rfl, rfl⟩
  | cons p ps ih =>
    intro st
    have hu := (check_product_store_indep env st emptyStore p).1
    have he := (check_product_store_indep env st emptyStore p).2.2
    constructor
    · show (check_product env st p).update ::
        (checkLoop env ps (check_product env st p).store).1 = _
      rw [hu, (ih _).1]
      rfl
    · show (check_product env st p).events ++
        (checkLoop env ps (check_product env st p).store).2.2 = _
      rw [he, (ih _).2]
      rfl

/-- No per-item event list contains a cycle-completion event. -/
theorem loop_events_no_complete (env : CheckEnv) (ps : List Product) :
    (ps.flatMap (fun p => (check_product env emptyStore p).events)).countP
      (fun e => match e with
        | Event.checkComplete _ _ => true
        | _ => false) = 0 := by
  induction ps with
  | nil => rfl
  | cons p ps ih =>
    rw [List.flatMap_cons, List.countP_append, ih]
    rcases check_product_events_shape env emptyStore p with h | h <;> simp [h]

/-- C5: a full cycle returns exactly one result per loaded item, in the
loaded order (the i-th result is the check of the i-th item, whose identity
it keeps), even in environments where store calls raise; and after the last
item exactly one cycle-completion event carrying
`(succeeded count, total count)` is emitted, at the very end. -/
theorem check_all_isolation (env : CheckEnv) (st : Store) :
    (check_all_products env st).1.length = st.products.length ∧
    (check_all_products env st).1 =
      st.products.map (fun p => (check_product env st p).update) ∧
    (check_all_products env st).1.map (fun u => u.product.id) =
      st.products.map (fun p => p.id) ∧
    (check_all_products env st).2.2.getLast? =
      some (Event.checkComplete
        ((check_all_products env st).1.countP (·.success)) st.products.length) ∧
    (check_all_products env st).2.2.countP
      (fun e => match e with
        | Event.checkComplete _ _ => true
        | _ => false) = 1 := by
  have h1 : (check_all_products env st).1 =
      st.products.map (fun p => (check_product env emptyStore p).update) :=
    (checkLoop_map env st.products st).1
  have hmap : st.products.map (fun p => (check_product env emptyStore p).update) =
      st.products.map (fun p => (check_product env st p).update) :=
    List.map_congr_left fun p _ => (check_product_store_indep env emptyStore st p).1
  have h2 : (check_all_products env st).2.2 =
      (checkLoop env st.products st).2.2 ++
        [Event.checkComplete ((check_all_products env st).1.countP (·.success))
          st.products.length] := rfl
  refine ⟨?_, ?_, ?_, ?_, ?_⟩
  · rw [h1, List.length_map]
  · rw [h1, hmap]
  · rw [h1, List.map_map]
    exact List.map_congr_left fun p _ => check_product_update_id env emptyStore p
  · rw [h2]
    exact List.getLast?_concat _
  · rw [h2, List.countP_append, (checkLoop_map env st.products st).2,
      loop_events_no_complete env st.products]
    rfl

/-! ## Character-provenance lemmas for the regex matcher (towards C7) -/

/-- `takeCls` splits its input. -/
theorem takeCls_append (f : Char → Bool) : ∀ cs : List Char,
    (takeCls f cs).1 ++ (takeCls f cs).2 = cs := by
  intro cs
  induction cs with
  | nil => rfl
  | cons c cs ih =>
    unfold takeCls
    by_cases h : f c
    · simp only [h, if_true]
      simpa using ih
    · simp [h]

/-- Characters surviving `dropLit` come from the input. -/
theorem dropLit_mem (l : List Char) : ∀ (cs rest : List Char),
    dropLit l cs = some rest → ∀ c ∈ rest, c ∈ cs := by
  induction l with
  | nil =>
    intro cs rest h c hc
    simp only [dropLit, Option.some.injEq] at h
    subst h
    exact hc
  | cons x xs ih =>
    intro cs rest h c hc
    cases cs with
    | nil => simp [dropLit] at h
    | cons y ys =>
      unfold dropLit at h
      by_cases he : caseFold y = caseFold x
      · rw [if_pos he] at h
        exact List.mem_cons_of_mem _ (ih ys rest h c hc)
      · rw [if_neg he] at h
        cases h

/-- Every split produced by `greedySplits` draws its characters from the
run and the rest. -/
theorem greedySplits_mem (run rest : List Char) (minLen : Nat)
    (pr : List Char × List Char) (h : pr ∈ greedySplits run rest minLen) :
    (∀ c ∈ pr.1, c ∈ run) ∧ ∀ c ∈ pr.2, c ∈ run ∨ c ∈ rest := by
  rcases List.mem_map.mp h with ⟨i, _, hi⟩
  subst hi
  constructor
  · intro c hc
    exact List.take_subset _ _ hc
  · intro c hc
    rcases List.mem_append.mp hc with h' | h'
    · exact Or.inl (List.drop_subset _ _ h')
    · exact Or.inr h'

/-- Every residue and every capture produced by the matcher draws its
characters from the input. -/
theorem mrun_mem (re : RE) : ∀ (cs : List Char) (pr : Option (List Char) × List Char),
    pr ∈ mrun re cs →
    (∀ c ∈ pr.2, c ∈ cs) ∧ ∀ l, pr.1 = some l → ∀ c ∈ l, c ∈ cs := by
  induction re with
  | cls f =>
    intro cs pr h
    cases cs with
    | nil => simp [mrun] at h
    | cons x xs =>
      unfold mrun at h
      by_cases hf : f x
      · rw [if_pos hf] at h
        simp only [List.mem_singleton] at h
        subst h
        exact ⟨fun c hc => List.mem_cons_of_mem _ hc, by simp⟩
      · rw [if_neg hf] at h
        cases h
  | lit l' =>
    intro cs pr h
    unfold mrun at h
    cases hd : dropLit l' cs with
    | none =>
      rw [hd] at h
      cases h
    | some rest =>
      rw [hd] at h
      simp only [List.mem_singleton] at h
      subst h
      exact ⟨fun c hc => dropLit_mem l' cs rest hd c hc, by simp⟩
  | opt l' =>
    intro cs pr h
    unfold mrun at h
    cases hd : dropLit l' cs with
    | none =>
      rw [hd] at h
      simp only [List.mem_singleton] at h
      subst h
      exact ⟨fun c hc => hc, by simp⟩
    | some rest =>
      rw [hd] at h
      rcases List.mem_cons.mp h with h' | h'
      · subst h'
        exact ⟨fun c hc => dropLit_mem l' cs rest hd c hc, by simp⟩
      · simp only [List.mem_singleton] at h'
        subst h'
        exact ⟨fun c hc => hc, by simp⟩
  | alt a b iha ihb =>
    intro cs pr h
    unfold mrun at h
    rcases List.mem_append.mp h with h' | h'
    · exact iha cs pr h'
    · exact ihb cs pr h'
  | seq a b iha ihb =>
    intro cs pr h
    unfold mrun at h
    rcases List.mem_flatMap.mp h with ⟨pa, hpa, hmap⟩
    rcases List.mem_map.mp hmap with ⟨qb, hqb, heq⟩
    subst heq
    have ha := iha cs pa hpa
    have hb := ihb pa.2 qb hqb
    refine ⟨fun c hc => ha.1 c (hb.1 c hc), ?_⟩
    intro l hl c hc
    cases hpa1 : pa.1 with
    | some la =>
      rw [hpa1] at hl
      simp only [combineCap, Option.some.injEq] at hl
      subst hl
      exact ha.2 la hpa1 c hc
    | none =>
      rw [hpa1] at hl
      simp only [combineCap] at hl
      exact ha.1 c (hb.2 l hl c hc)
  | star f =>
    intro cs pr h
    simp only [mrun] at h
    rcases List.mem_map.mp h with ⟨s, hs, heq⟩
    subst heq
    have hg := greedySplits_mem _ _ _ s hs
    have hta := takeCls_append f cs
    refine ⟨fun c hc => ?_, by simp⟩
    rcases hg.2 c hc with h' | h'
    · rw [← hta]
      exact List.mem_append.mpr (Or.inl h')
    · rw [← hta]
      exact List.mem_append.mpr (Or.inr h')
  | grp f =>
    intro cs pr h
    simp only [mrun] at h
    rcases List.mem_map.mp h with ⟨s, hs, heq⟩
    subst heq
    have hg := greedySplits_mem _ _ _ s hs
    have hta := takeCls_append f cs
    constructor
    · intro c hc
      rcases hg.2 c hc with h' | h'
      · rw [← hta]
        exact List.mem_append.mpr (Or.inl h')
      · rw [← hta]
        exact List.mem_append.mpr (Or.inr h')
    · intro l hl c hc
      simp only [Option.some.injEq] at hl
      subst hl
      rw [← hta]
      exact List.mem_append.mpr (Or.inl (hg.1 c hc))

/-- Every capture returned by `search` draws its characters from the
input. -/
theorem search_mem (re : RE) : ∀ (cs cap : List Char),
    search re cs = some cap → ∀ c ∈ cap, c ∈ cs := by
  intro cs
  induction cs with
  | nil =>
    intro cap h c hc
    unfold search at h
    cases hh : (mrun re []).head? with
    | none =>
      rw [hh] at h
      cases h
    | some pr =>
      rw [hh] at h
      simp only [Option.some.injEq] at h
      subst h
      have hpr := mrun_mem re [] pr (List.mem_of_mem_head? hh)
      cases hp1 : pr.1 with
      | none =>
        rw [hp1] at hc
        cases hc
      | some l =>
        rw [hp1] at hc
        simp only [Option.getD_some] at hc
        exact hpr.2 l hp1 c hc
  | cons x xs ih =>
    intro cap h c hc
    unfold search at h
    cases hh : (mrun re (x :: xs)).head? with
    | none =>
      rw [hh] at h
      exact List.mem_cons_of_mem _ (ih cap h c hc)
    | some pr =>
      rw [hh] at h
      simp only [Option.some.injEq] at h
      subst h
      have hpr := mrun_mem re (x :: xs) pr (List.mem_of_mem_head? hh)
      cases hp1 : pr.1 with
      | none =>
        rw [hp1] at hc
        cases hc
      | some l =>
        rw [hp1] at hc
        simp only [Option.getD_some] at hc
        exact hpr.2 l hp1 c hc

/-- `splitDots` never produces the empty list of parts. -/
theorem splitDots_ne_nil : ∀ cs : List Char, splitDots cs ≠ [] := by
  intro cs
  cases cs with
  | nil => simp [splitDots]
  | cons x xs =>
    unfold splitDots
    by_cases hx : x = '.'
    · simp [hx]
    · rw [if_neg hx]
      cases hs : splitDots xs <;> simp

/-- Characters of any part of `splitDots` come from the input. -/
theorem splitDots_mem : ∀ (cs part : List Char), part ∈ splitDots cs →
    ∀ c ∈ part, c ∈ cs := by
  intro cs
  induction cs with
  | nil =>
    intro part h c hc
    simp only [splitDots, List.mem_singleton] at h
    subst h
    cases hc
  | cons x xs ih =>
    intro part h c hc
    unfold splitDots at h
    by_cases hx : x = '.'
    · rw [if_pos hx] at h
      rcases List.mem_cons.mp h with h' | h'
      · subst h'
        cases hc
      · exact List.mem_cons_of_mem _ (ih part h' c hc)
    · rw [if_neg hx] at h
      cases hs : splitDots xs with
      | nil =>
        rw [hs] at h
        simp only [List.mem_singleton] at h
        subst h
        simp only [List.mem_singleton] at hc
        subst hc
        exact List.mem_cons_self _ _
      | cons p ps =>
        rw [hs] at h
        rcases List.mem_cons.mp h with h' | h'
        · subst h'
          rcases List.mem_cons.mp hc with h'' | h''
          · subst h''
            exact List.mem_cons_self _ _
          · have hp : p ∈ splitDots xs := by
              rw [hs]
              exact List.mem_cons_self p ps
            exact List.mem_cons_of_mem _ (ih p hp c h'')
        · have hp : part ∈ splitDots xs := by
            rw [hs]
            exact List.mem_cons_of_mem _ h'
          exact List.mem_cons_of_mem _ (ih part hp c hc)

/-- Characters of `collapseDots` come from the input or are the joining
dot. -/
theorem collapseDots_mem (cs : List Char) :
    ∀ c ∈ collapseDots cs, c ∈ cs ∨ c = '.' := by
  intro c hc
  simp only [collapseDots] at hc
  split_ifs at hc with hlen
  · rcases List.mem_append.mp hc with h' | h'
    · rcases List.mem_flatten.mp h' with ⟨part, hp, hcp⟩
      exact Or.inl (splitDots_mem cs part (List.dropLast_subset _ hp) c hcp)
    · rcases List.mem_cons.mp h' with h'' | h''
      · exact Or.inr h''
      · have hne := splitDots_ne_nil cs
        have hlast : (splitDots cs).getLastD [] ∈ splitDots cs := by
          rw [List.getLastD_eq_getLast? _ _, List.getLast?_eq_getLast_of_ne_nil hne]
          simp only [Option.getD_some]
          exact List.getLast_mem hne
        exact Or.inl (splitDots_mem cs _ hlast c h'')
  · exact Or.inl hc

/-- `float` conversion fails on a digit-free string. -/
theorem pyFloat_none (cs : List Char) (h : ∀ c ∈ cs, pyDigit c = false) :
    pyFloat cs = none := by
  have hany : cs.any pyDigit = false := by
    rw [List.any_eq_false]
    intro c hc
    simp [h c hc]
  simp [pyFloat, hany]

/-- On a digit-free cleaned string, every pattern iteration of the parse
loop falls through. -/
theorem tryPattern_none (re : RE) (cs : List Char)
    (h : ∀ c ∈ cs, pyDigit c = false) : tryPattern re cs = none := by
  unfold tryPattern
  cases hs : search re cs with
  | none => rfl
  | some cap =>
    have hcap : ∀ c ∈ cap, pyDigit c = false :=
      fun c hc => h c (search_mem re cs cap hs c hc)
    have h1 : ∀ c ∈ cap.filter (fun c => c ≠ ' '), pyDigit c = false :=
      fun c hc => hcap c (List.mem_of_mem_filter hc)
    have h2 : ∀ c ∈ (if matchUS (cap.filter fun c => c ≠ ' ')
        then (cap.filter fun c => c ≠ ' ').filter (fun c => c ≠ ',')
        else (cap.filter fun c => c ≠ ' ').map (fun c => if c = ',' then '.' else c)),
        pyDigit c = false := by
      split_ifs
      · exact fun c hc => h1 c (List.mem_of_mem_filter hc)
      · intro c hc
        rcases List.mem_map.mp hc with ⟨b, hb, hbc⟩
        subst hbc
        by_cases hb' : b = ','
        · rw [if_pos hb']
          decide
        · rw [if_neg hb']
          exact h1 b hb
    exact pyFloat_none _ fun c hc => by
      rcases collapseDots_mem _ c hc with h' | h'
      · exact h2 c h'
      · subst h'
        decide

/-- The whole pattern loop yields nothing on a digit-free cleaned
string. -/
theorem parseLoop_none : ∀ (pats : List RE) (cs : List Char),
    (∀ c ∈ cs, pyDigit c = false) → parseLoop pats cs = none := by
  intro pats
  induction pats with
  | nil => intro cs _; rfl
  | cons re pats ih =>
    intro cs h
    unfold parseLoop
    rw [tryPattern_none re cs h]
    exact ih cs h

/-- Stripping keeps only characters of the input. -/
theorem pyStrip_mem (cs : List Char) : ∀ c ∈ pyStrip cs, c ∈ cs := by
  intro c hc
  unfold pyStrip at hc
  have h1 := List.mem_reverse.mp hc
  have h2 := (List.dropWhile_sublist pySpace).subset h1
  have h3 := List.mem_reverse.mp h2
  exact (List.dropWhile_sublist pySpace).subset h3

/-- C7: for every input string containing no digit character — including
strings of only dots, commas and spaces that the bare-number fallback can
still match — `parse_price` returns no value (and, being a total function,
never raises): a failed float conversion just moves on to the next pattern
until the list is exhausted. -/
theorem parse_price_no_digits (s : String) (h : ∀ c ∈ s.data, pyDigit c = false) :
    parse_price s = none := by
  unfold parse_price
  split_ifs with he
  · rfl
  · exact parseLoop_none PRICE_PATTERNS (pyStrip s.data)
      fun c hc => h c (pyStrip_mem s.data c hc)

/-- Witness for C7 on a digit-free string of dots, commas and spaces that
the fallback pattern matches. -/
theorem parse_price_no_digits_witness :
    (∀ c ∈ (". , .").data, pyDigit c = false) ∧ parse_price ". , ." = none :=
  ⟨by decide, parse_price_no_digits ". , ." (by decide)⟩

end PriceScraper
